import Mathlib

/-!
# Alert evaluation context (pkg/services/alerting/eval_context.go)

A shallow embedding of the `EvalContext` type of the alerting service and of
its methods, followed by theorems about them.

Conventions of the embedding

* A Go `string` is a Lean `String`, a Go `int64` / `int` is an `Int` (no
  arithmetic in this file can leave the 64-bit range: the only subtraction is
  between two values of `[0, 10^9)`).
* A Go `error` is an `Option Error`; `none` is `nil`.
* A method that can `panic` returns `Except String _`, the error being the
  panic message.
* A method that talks to the bus takes the bus and the world (collaborator
  state and the trace of dispatched queries) and returns the new context and
  the new world next to its Go results.
* A finite `float64` is the rational number it denotes. The conversion
  `float64(x)` and the division `/` round their exact result to the nearest
  binary64 value, ties to even (`Float64.round`).
-/

namespace Alerting

/-! ## Types of the standard library and of sibling packages -/

/-- An instant of `time.Time`, as the number of nanoseconds since the epoch. -/
structure Time where
  unixNano : Int
deriving DecidableEq, Repr

/-- Nanoseconds are the unit of `time.Duration`. -/
abbrev Duration := Int

def Nanosecond : Duration := 1
def Millisecond : Duration := 1000000 * Nanosecond
def Second : Duration := 1000 * Millisecond

namespace Time

/-- The method `Time.Nanosecond`: the nanosecond offset within the second, in
the range `[0, 999999999]`. -/
def Nanosecond (t : Time) : Int := t.unixNano % 1000000000

/-- The method `Time.Add`. -/
def Add (t : Time) (d : Duration) : Time := ⟨t.unixNano + d⟩

/-- The method `Time.Sub`: the elapsed duration `t - u` in nanoseconds. -/
def Sub (t u : Time) : Duration := t.unixNano - u.unixNano

end Time

/-- A Go `error` value, identified by its message. -/
abbrev Error := String

/-- The type `m.AlertStateType`, a string type (the source concatenates it to
a string literal). -/
abbrev AlertStateType := String

/-- The four constants of package `models` that `GetStateModel` switches on.
Their declaration is not part of the file, so they are parameters. -/
structure AlertStates where
  AlertStateOK : AlertStateType
  AlertStateNoData : AlertStateType
  AlertStateExecError : AlertStateType
  AlertStateAlerting : AlertStateType

/-- The case constants are pairwise different: the Go compiler rejects an
expression switch with a duplicate constant case. -/
def AlertStates.Distinct (K : AlertStates) : Prop :=
  K.AlertStateOK ≠ K.AlertStateNoData ∧ K.AlertStateOK ≠ K.AlertStateExecError ∧
  K.AlertStateOK ≠ K.AlertStateAlerting ∧ K.AlertStateNoData ≠ K.AlertStateExecError ∧
  K.AlertStateNoData ≠ K.AlertStateAlerting ∧ K.AlertStateExecError ≠ K.AlertStateAlerting

instance (K : AlertStates) : Decidable K.Distinct := by
  unfold AlertStates.Distinct; infer_instance

/-- The recognized states: the case constants of the switch. -/
def AlertStates.Recognized (K : AlertStates) (s : AlertStateType) : Prop :=
  s = K.AlertStateOK ∨ s = K.AlertStateNoData ∨ s = K.AlertStateExecError ∨
  s = K.AlertStateAlerting

instance (K : AlertStates) (s : AlertStateType) : Decidable (K.Recognized s) := by
  unfold AlertStates.Recognized; infer_instance

/-- Modelled from the spec: the `Rule` type is declared in a sibling file; the
spec names the fields the context reads (Name, State, DashboardId, PanelId). -/
structure Rule where
  Name : String
  State : AlertStateType
  DashboardId : Int
  PanelId : Int

/-- Modelled from the spec: an `EvalMatch` is a single series/value pair that
satisfied the condition of the rule; the type is declared in a sibling file. -/
structure EvalMatch where
  Metric : String
  Value : Int

/-- Modelled from the spec: a `ResultLogEntry` is a diagnostic breadcrumb
produced during evaluation; the type is declared in a sibling file. -/
structure ResultLogEntry where
  Message : String

/-- A snapshot of a `context.Context`: what its four methods answer. -/
structure Context where
  deadline : Time
  ok : Bool
  done : Bool
  err : Option Error
  value : String → Option String

namespace Context

def Deadline (ctx : Context) : Time × Bool := (ctx.deadline, ctx.ok)
def Done (ctx : Context) : Bool := ctx.done
def Err (ctx : Context) : Option Error := ctx.err
def Value (ctx : Context) (key : String) : Option String := ctx.value key

end Context

/-- The query `m.GetDashboardSlugByIdQuery`: the handler reads `Id` and writes
`Result`. -/
structure GetDashboardSlugByIdQuery where
  Id : Int
  Result : String
deriving DecidableEq, Repr

/-- The dashboard-metadata collaborator behind the bus: a handler with a state
of its own, which may rewrite the query and returns an error or `nil`. -/
structure Bus (σ : Type) where
  handler : σ → GetDashboardSlugByIdQuery → σ × GetDashboardSlugByIdQuery × Option Error

/-- The world outside the context: the state of the collaborator and the trace
of the queries dispatched so far, oldest first. -/
structure World (σ : Type) where
  state : σ
  dispatched : List GetDashboardSlugByIdQuery

/-- Modelled from the spec: `bus.Dispatch` hands the query to the handler of the
dashboard-metadata collaborator; the package is not part of the file. The
query as sent is appended to the trace. -/
def Dispatch {σ : Type} (bus : Bus σ) (w : World σ) (q : GetDashboardSlugByIdQuery) :
    World σ × GetDashboardSlugByIdQuery × Option Error :=
  let r := bus.handler w.state q
  ({ state := r.1, dispatched := w.dispatched ++ [q] }, r.2.1, r.2.2)

/-! ## Arithmetic of `float64` -/

namespace Float64

/-- The integer nearest to a rational, the even one of the two when it lies
half way between them. -/
def roundHalfEven (q : ℚ) : Int :=
  if q - ⌊q⌋ < 1 / 2 then ⌊q⌋
  else if 1 / 2 < q - ⌊q⌋ then ⌊q⌋ + 1
  else if ⌊q⌋ % 2 = 0 then ⌊q⌋ else ⌊q⌋ + 1

/-- The exponent of the unit in the last place of the binary64 values around
`q`: the significand has 53 bits, and below the smallest normal number the
spacing stays `2 ^ (-1074)`. -/
def ulpExponent (q : ℚ) : Int := max (Int.log 2 |q| - 52) (-1074)

/-- Rounding to binary64, to nearest and ties to even, as IEEE 754 prescribes
for conversions and for division: the multiple of the unit in the last place
nearest to `q`. Overflow to an infinity (from `2 ^ 1024` on) is not
represented; no value of this file comes near it. -/
def round (q : ℚ) : ℚ :=
  (roundHalfEven (q / 2 ^ ulpExponent q) : ℚ) * 2 ^ ulpExponent q

/-- The conversion `float64(n)` of an integer. -/
def ofInt (n : Int) : ℚ := round (n : ℚ)

/-- The division `x / y` of two `float64` values, for a divisor that is not
zero. -/
def div (x y : ℚ) : ℚ := round (x / y)

end Float64

/-! ## The evaluation context -/

/-- The struct `EvalContext`. `Rule` and `Context` are taken non-nil. The
logger is represented by its name and the cancel function by whether it is
set. -/
structure EvalContext where
  Firing : Bool
  IsTestRun : Bool
  EvalMatches : List EvalMatch
  Logs : List ResultLogEntry
  Error : Option Error
  Description : String
  StartTime : Time
  EndTime : Time
  Rule : Rule
  log : String
  dashboardSlug : String
  ImagePublicUrl : String
  ImageOnDiskPath : String
  NoDataFound : Bool
  RetryCount : Int
  Cancel : Bool
  Context : Context

/-- The struct `StateDescription`. -/
structure StateDescription where
  Color : String
  Text : String
  Data : String
deriving DecidableEq, Repr

namespace EvalContext

/-- The method `Deadline`: its body is the call `evalContext.Deadline()`, the
method itself. Each unit of fuel pays for one call; `none` means the call has
not returned within the fuel. -/
def Deadline : Nat → EvalContext → Option (Time × Bool)
  | 0, _ => none
  | fuel + 1, evalContext => Deadline fuel evalContext

/-- The method `Done`. -/
def Done (evalContext : EvalContext) : Bool := evalContext.Context.Done

/-- The method `Err`. -/
def Err (evalContext : EvalContext) : Option Alerting.Error := evalContext.Context.Err

/-- The method `Value`. -/
def Value (evalContext : EvalContext) (key : String) : Option String :=
  evalContext.Context.Value key

/-- The method `GetStateModel`: the switch tries the cases in order; the default
case panics. -/
def GetStateModel (K : AlertStates) (c : EvalContext) : Except String StateDescription :=
  if c.Rule.State = K.AlertStateOK then
    .ok { Color := "#36a64f", Text := "OK", Data := "" }
  else if c.Rule.State = K.AlertStateNoData then
    .ok { Color := "#888888", Text := "No Data", Data := "" }
  else if c.Rule.State = K.AlertStateExecError then
    .ok { Color := "#000", Text := "Execution Error", Data := "" }
  else if c.Rule.State = K.AlertStateAlerting then
    .ok { Color := "#D63232", Text := "Alerting", Data := "" }
  else
    .error ("Unknown rule state " ++ c.Rule.State)

/-- The method `GetDurationMs`: the integer difference of the two
`Nanosecond()` readings is converted to `float64` and divided by
`float64(1000000)`. -/
def GetDurationMs (a : EvalContext) : ℚ :=
  Float64.div (Float64.ofInt (a.EndTime.Nanosecond - a.StartTime.Nanosecond))
    (Float64.ofInt 1000000)

/-- The method `GetNotificationTitle`; a panic of `GetStateModel` passes
through. -/
def GetNotificationTitle (K : AlertStates) (c : EvalContext) : Except String String :=
  match GetStateModel K c with
  | .error msg => .error msg
  | .ok sm => .ok ("[" ++ sm.Text ++ "] " ++ c.Rule.Name)

end EvalContext

/-- What a method that talks to the bus hands back: its two Go results, the
context after the call and the world after the call. -/
structure Outcome (σ : Type) where
  value : String
  err : Option Error
  ctx : EvalContext
  world : World σ

namespace EvalContext

/-- The method `GetDashboardSlug`. -/
def GetDashboardSlug {σ : Type} (bus : Bus σ) (c : EvalContext) (w : World σ) : Outcome σ :=
  if c.dashboardSlug ≠ "" then
    { value := c.dashboardSlug, err := none, ctx := c, world := w }
  else
    let slugQuery : GetDashboardSlugByIdQuery := { Id := c.Rule.DashboardId, Result := "" }
    let r := Dispatch bus w slugQuery
    match r.2.2 with
    | some err => { value := "", err := some err, ctx := c, world := r.1 }
    | none =>
      let c1 : EvalContext := { c with dashboardSlug := r.2.1.Result }
      { value := c1.dashboardSlug, err := none, ctx := c1, world := r.1 }

/-- The verbs `%s` and `%d` of `fmt.Sprintf` in the format of `GetRuleUrl`. -/
def ruleUrlFormat (appUrl slug : String) (panelId : Int) : String :=
  appUrl ++ "dashboard/db/" ++ slug ++ "?fullscreen&edit&tab=alert&panelId=" ++ toString panelId

/-- The method `GetRuleUrl`; `appUrl` is the setting `setting.AppUrl`. -/
def GetRuleUrl {σ : Type} (appUrl : String) (bus : Bus σ) (c : EvalContext) (w : World σ) :
    Outcome σ :=
  let r := GetDashboardSlug bus c w
  match r.err with
  | some err => { value := "", err := some err, ctx := r.ctx, world := r.world }
  | none =>
    let ruleUrl := ruleUrlFormat appUrl r.value c.Rule.PanelId
    { value := ruleUrl, err := none, ctx := r.ctx, world := r.world }

end EvalContext

/-! ## Construction -/

namespace Time

/-- The zero value of `time.Time`: January 1, year 1, 00:00:00 UTC, which is
62135596800 seconds before the epoch. -/
def zero : Time := ⟨-62135596800000000000⟩

/-- The method `Time.Unix`: the whole seconds since the epoch. -/
def Unix (t : Time) : Int := t.unixNano / 1000000000

/-- The method `Time.Before`. -/
def Before (t u : Time) : Bool := decide (t.unixNano < u.unixNano)

end Time

/-- The error `context.DeadlineExceeded`. -/
def DeadlineExceeded : Error := "context deadline exceeded"

/-- The function `context.WithTimeout` of the standard library, as a snapshot of
the scope it returns; `now` is the clock reading it takes. It is
`WithDeadline(parent, now.Add(timeout))`: when the parent's deadline is before
the new one the child is a plain cancellable child of the parent and keeps the
parent's deadline; otherwise the child gets the new deadline. A child of a
parent that is done is done with the parent's error; a child whose deadline
has already passed is done with `DeadlineExceeded`. -/
def WithTimeout (parent : Context) (timeout : Duration) (now : Time) : Context :=
  let d := now.Add timeout
  if parent.ok = true ∧ parent.deadline.Before d = true then
    parent
  else if parent.done = false ∧ timeout ≤ 0 then
    { parent with deadline := d, ok := true, done := true, err := some DeadlineExceeded }
  else
    { parent with deadline := d, ok := true }

/-- The constructor `NewEvalContext`. `tTimeout` is the clock reading
`context.WithTimeout` takes and `tStart` the reading of the later call
`time.Now()`. The cancel function `WithTimeout` returns is never nil. The
fields the composite literal does not name have their zero values. -/
def NewEvalContext (grafanaCtx : Context) (rule : Rule) (tTimeout tStart : Time) : EvalContext :=
  let timeout : Duration := Second * 20
  let ctx := WithTimeout grafanaCtx timeout tTimeout
  { Cancel := true,
    Context := ctx,
    StartTime := tStart,
    Rule := rule,
    Logs := [],
    EvalMatches := [],
    log := "alerting.evalContext",
    RetryCount := 0,
    Firing := false, IsTestRun := false, Error := none, Description := "",
    EndTime := Time.zero, dashboardSlug := "", ImagePublicUrl := "", ImageOnDiskPath := "",
    NoDataFound := false }

/-- The elapsed time in the words of the specification: `EndTime - StartTime`
expressed in milliseconds, from the full nanosecond difference. -/
def elapsedMsSpec (a : EvalContext) : ℚ :=
  ((a.EndTime.Sub a.StartTime : Int) : ℚ) / ((1000000 : Int) : ℚ)

/-! ## The operations of the context as steps on (context, world) -/

/-- The methods of `EvalContext`, with their arguments. -/
inductive Op where
  | Deadline (fuel : Nat)
  | Done
  | Err
  | Value (key : String)
  | GetStateModel
  | GetDurationMs
  | GetNotificationTitle
  | GetDashboardSlug
  | GetRuleUrl

/-- The context and the world after a method has run (or has panicked, or has
run out of fuel). Only `GetDashboardSlug` and `GetRuleUrl` assign a field or
reach the bus; the other methods read the receiver. -/
def Op.run {σ : Type} (appUrl : String) (bus : Bus σ) :
    Op → EvalContext → World σ → EvalContext × World σ
  | .Deadline _, c, w => (c, w)
  | .Done, c, w => (c, w)
  | .Err, c, w => (c, w)
  | .Value _, c, w => (c, w)
  | .GetStateModel, c, w => (c, w)
  | .GetDurationMs, c, w => (c, w)
  | .GetNotificationTitle, c, w => (c, w)
  | .GetDashboardSlug, c, w => ((c.GetDashboardSlug bus w).ctx, (c.GetDashboardSlug bus w).world)
  | .GetRuleUrl, c, w => ((c.GetRuleUrl appUrl bus w).ctx, (c.GetRuleUrl appUrl bus w).world)

/-- A sequence of methods run one after the other, each on the context and the
world the previous one left. -/
def Op.runAll {σ : Type} (appUrl : String) (bus : Bus σ) :
    List Op → EvalContext → World σ → EvalContext × World σ
  | [], c, w => (c, w)
  | op :: ops, c, w => Op.runAll appUrl bus ops (op.run appUrl bus c w).1 (op.run appUrl bus c w).2

/-- Two consecutive calls of `GetDashboardSlug`: the outcome of the first and
the outcome of the second, which starts where the first ended. -/
def GetDashboardSlugTwice {σ : Type} (bus : Bus σ) (c : EvalContext) (w : World σ) :
    Outcome σ × Outcome σ :=
  (c.GetDashboardSlug bus w,
   (c.GetDashboardSlug bus w).ctx.GetDashboardSlug bus (c.GetDashboardSlug bus w).world)

/-- The query `GetDashboardSlug` sends for a context. -/
def slugQueryOf (c : EvalContext) : GetDashboardSlugByIdQuery :=
  { Id := c.Rule.DashboardId, Result := "" }

/-! ## Concrete values used to instantiate the theorems -/

/-- The values the four constants have in package `models`. -/
def stdStates : AlertStates :=
  { AlertStateOK := "ok", AlertStateNoData := "no_data",
    AlertStateExecError := "execution_error", AlertStateAlerting := "alerting" }

/-- A context scope with no deadline, not cancelled, holding no values. -/
def background : Context :=
  { deadline := ⟨0⟩, ok := false, done := false, err := none, value := fun _ => none }

/-- A context for the rule `cpu` of dashboard 3, panel 7, in the given state,
with the given memoized slug and the given start and end times. -/
def sampleContext (state : AlertStateType) (slug : String) (start stop : Int) : EvalContext :=
  { Firing := false, IsTestRun := false, EvalMatches := [], Logs := [], Error := none,
    Description := "", StartTime := ⟨start⟩, EndTime := ⟨stop⟩,
    Rule := { Name := "cpu", State := state, DashboardId := 3, PanelId := 7 },
    log := "alerting.evalContext", dashboardSlug := slug, ImagePublicUrl := "",
    ImageOnDiskPath := "", NoDataFound := false, RetryCount := 0, Cancel := true,
    Context := background }

/-- A collaborator whose every lookup succeeds with the same slug. -/
def constBus (slug : String) : Bus Unit :=
  { handler := fun _ q => ((), { q with Result := slug }, none) }

/-- A collaborator whose every lookup fails with the same error. -/
def failBus (e : Error) : Bus Unit :=
  { handler := fun _ q => ((), q, some e) }

/-- A collaborator that counts its lookups: the first fails with the error, the
later ones succeed with the slug. -/
def flakyBus (e : Error) (slug : String) : Bus Nat :=
  { handler := fun n q =>
      if n = 0 then (n + 1, q, some e) else (n + 1, { q with Result := slug }, none) }

/-- A parent scope with the given deadline, not cancelled. -/
def deadlineParent (deadline : Int) : Context :=
  { deadline := ⟨deadline⟩, ok := true, done := false, err := none, value := fun _ => none }

/-- A parent scope that has been cancelled. -/
def cancelledParent : Context :=
  { deadline := ⟨0⟩, ok := false, done := true, err := some "context canceled",
    value := fun _ => none }

/-- The rule `cpu` of dashboard 3, panel 7, in the given state. -/
def sampleRule (state : AlertStateType) : Rule :=
  { Name := "cpu", State := state, DashboardId := 3, PanelId := 7 }

/-- A world in which nothing has been dispatched yet. -/
def freshWorld {σ : Type} (s : σ) : World σ := { state := s, dispatched := [] }

/-! ## Theorems -/

/-- C1: for pairwise different case constants and every context whose
`Rule.State` is OK, NoData, ExecError or Alerting, `GetStateModel` returns the
description with color and text `#36a64f` / `OK`, `#888888` / `No Data`,
`#000` / `Execution Error`, `#D63232` / `Alerting` respectively. -/
theorem C1_GetStateModel_table (K : AlertStates) (hK : K.Distinct) (c : EvalContext) :
    (c.Rule.State = K.AlertStateOK →
      c.GetStateModel K = .ok { Color := "#36a64f", Text := "OK", Data := "" }) ∧
    (c.Rule.State = K.AlertStateNoData →
      c.GetStateModel K = .ok { Color := "#888888", Text := "No Data", Data := "" }) ∧
    (c.Rule.State = K.AlertStateExecError →
      c.GetStateModel K = .ok { Color := "#000", Text := "Execution Error", Data := "" }) ∧
    (c.Rule.State = K.AlertStateAlerting →
      c.GetStateModel K = .ok { Color := "#D63232", Text := "Alerting", Data := "" }) := by
  obtain ⟨h1, h2, h3, h4, h5, h6⟩ := hK
  refine ⟨?_, ?_, ?_, ?_⟩
  · intro h
    simp [EvalContext.GetStateModel, h]
  · intro h
    simp [EvalContext.GetStateModel, h, Ne.symm h1]
  · intro h
    simp [EvalContext.GetStateModel, h, Ne.symm h2, Ne.symm h4]
  · intro h
    simp [EvalContext.GetStateModel, h, Ne.symm h3, Ne.symm h5, Ne.symm h6]

/-- C1 at the constants of package `models`, one context per state. -/
theorem C1_GetStateModel_table_witness :
    stdStates.Distinct ∧
    (sampleContext "ok" "" 0 0).GetStateModel stdStates =
      .ok { Color := "#36a64f", Text := "OK", Data := "" } ∧
    (sampleContext "no_data" "" 0 0).GetStateModel stdStates =
      .ok { Color := "#888888", Text := "No Data", Data := "" } ∧
    (sampleContext "execution_error" "" 0 0).GetStateModel stdStates =
      .ok { Color := "#000", Text := "Execution Error", Data := "" } ∧
    (sampleContext "alerting" "" 0 0).GetStateModel stdStates =
      .ok { Color := "#D63232", Text := "Alerting", Data := "" } :=
  ⟨by decide,
   (C1_GetStateModel_table stdStates (by decide) (sampleContext "ok" "" 0 0)).1 rfl,
   (C1_GetStateModel_table stdStates (by decide) (sampleContext "no_data" "" 0 0)).2.1 rfl,
   (C1_GetStateModel_table stdStates (by decide)
      (sampleContext "execution_error" "" 0 0)).2.2.1 rfl,
   (C1_GetStateModel_table stdStates (by decide) (sampleContext "alerting" "" 0 0)).2.2.2 rfl⟩

/-- The nanosecond of the second and the whole seconds of an instant: bounds
and recomposition. -/
theorem Time.nanosecond_unix (t : Time) :
    0 ≤ t.Nanosecond ∧ t.Nanosecond < 1000000000 ∧
    t.unixNano = 1000000000 * t.Unix + t.Nanosecond := by
  unfold Time.Nanosecond Time.Unix
  omega

/-- An integer rounds to itself. -/
theorem Float64.roundHalfEven_intCast (m : Int) : Float64.roundHalfEven (m : ℚ) = m := by
  simp [Float64.roundHalfEven]

/-- Rounding to an integer moves a number by at most one half. -/
theorem Float64.abs_roundHalfEven_sub_le (q : ℚ) :
    |(Float64.roundHalfEven q : ℚ) - q| ≤ 1 / 2 := by
  have h1 : (⌊q⌋ : ℚ) ≤ q := Int.floor_le q
  have h2 : q < ⌊q⌋ + 1 := Int.lt_floor_add_one q
  unfold Float64.roundHalfEven
  rw [abs_le]
  split_ifs with ha hb hc
  · constructor <;> linarith
  · push_cast
    constructor <;> linarith
  · constructor <;> linarith
  · push_cast
    constructor <;> linarith

/-- A number at most one half above an integer rounds to that integer. -/
theorem Float64.roundHalfEven_of_lt_half (q : ℚ) (m : Int) (h1 : (m : ℚ) ≤ q)
    (h2 : q < m + 1 / 2) : Float64.roundHalfEven q = m := by
  have hf : ⌊q⌋ = m := Int.floor_eq_iff.2 ⟨h1, by linarith⟩
  unfold Float64.roundHalfEven
  rw [hf, if_pos (by linarith)]

/-- Rounding to binary64 moves a number by at most half a unit in the last
place. -/
theorem Float64.abs_round_sub_le (q : ℚ) :
    |Float64.round q - q| ≤ 2 ^ Float64.ulpExponent q / 2 := by
  have hp : (0 : ℚ) < 2 ^ Float64.ulpExponent q := zpow_pos (by norm_num) _
  have h := Float64.abs_roundHalfEven_sub_le (q / 2 ^ Float64.ulpExponent q)
  have heq : Float64.round q - q =
      ((Float64.roundHalfEven (q / 2 ^ Float64.ulpExponent q) : ℚ) -
        q / 2 ^ Float64.ulpExponent q) * 2 ^ Float64.ulpExponent q := by
    unfold Float64.round
    field_simp
  rw [heq, abs_mul, abs_of_pos hp]
  calc |(Float64.roundHalfEven (q / 2 ^ Float64.ulpExponent q) : ℚ) -
          q / 2 ^ Float64.ulpExponent q| * 2 ^ Float64.ulpExponent q
      ≤ 1 / 2 * 2 ^ Float64.ulpExponent q := mul_le_mul_of_nonneg_right h hp.le
    _ = 2 ^ Float64.ulpExponent q / 2 := by ring

/-- Below `2 ^ k` the unit in the last place is at most `2 ^ (k - 53)`. -/
theorem Float64.ulpExponent_le (q : ℚ) (k : Int) (hk : 1 ≤ k) (h : |q| < 2 ^ k) :
    Float64.ulpExponent q ≤ k - 53 := by
  unfold Float64.ulpExponent
  apply max_le _ (by omega)
  rcases eq_or_lt_of_le (abs_nonneg q) with h0 | hpos
  · rw [← h0, Int.log_zero_right]
    omega
  · have : Int.log 2 |q| < k :=
      (Int.lt_zpow_iff_log_lt (by norm_num) hpos).1 (by exact_mod_cast h)
    omega

/-- A multiple of its unit in the last place is a binary64 value: rounding
leaves it as it is. -/
theorem Float64.round_of_multiple (q : ℚ) (m : Int)
    (h : q / 2 ^ Float64.ulpExponent q = m) : Float64.round q = q := by
  have hp : (2 : ℚ) ^ Float64.ulpExponent q ≠ 0 := (zpow_pos (by norm_num) _).ne.symm
  unfold Float64.round
  rw [h, Float64.roundHalfEven_intCast, ← h]
  field_simp

/-- An integer below `2 ^ 53` in absolute value is a binary64 value. -/
theorem Float64.round_intCast (n : Int) (h : |n| < 2 ^ 53) : Float64.round (n : ℚ) = n := by
  have hq : |(n : ℚ)| < 2 ^ (53 : Int) := by
    have h1 : ((|n| : Int) : ℚ) < ((2 ^ 53 : Int) : ℚ) := Int.cast_lt.2 h
    rw [Int.cast_abs] at h1
    norm_num at h1 ⊢
    exact h1
  have he := Float64.ulpExponent_le (n : ℚ) 53 (by norm_num) hq
  obtain ⟨k, hk⟩ : ∃ k : ℕ, Float64.ulpExponent (n : ℚ) = -(k : Int) :=
    ⟨(-Float64.ulpExponent (n : ℚ)).toNat, by omega⟩
  apply Float64.round_of_multiple (n : ℚ) (n * 2 ^ k)
  rw [hk, zpow_neg, div_inv_eq_mul, zpow_natCast]
  push_cast
  rfl

/-- The unit in the last place around one millionth is `2 ^ (-72)`. -/
theorem Float64.ulpExponent_millionth : Float64.ulpExponent (1 / 1000000) = -72 := by
  have hpos : (0 : ℚ) < |1 / 1000000| := by norm_num
  have h1 : Int.log 2 |(1 / 1000000 : ℚ)| < -19 :=
    (Int.lt_zpow_iff_log_lt (by norm_num) hpos).1 (by norm_num [abs_of_pos])
  have h2 : -20 ≤ Int.log 2 |(1 / 1000000 : ℚ)| :=
    (Int.zpow_le_iff_le_log (by norm_num) hpos).1 (by norm_num [abs_of_pos])
  unfold Float64.ulpExponent
  omega

/-- The binary64 value nearest to one millionth. -/
theorem Float64.round_millionth :
    Float64.round (1 / 1000000) = 4722366482869645 / 2 ^ 72 := by
  unfold Float64.round
  rw [Float64.ulpExponent_millionth,
    Float64.roundHalfEven_of_lt_half _ 4722366482869645 (by norm_num) (by norm_num)]
  norm_num

/-- The conversions in `GetDurationMs` are exact: what it returns is the exact
quotient of the nanosecond-of-second difference by 10^6, rounded once. -/
theorem GetDurationMs_eq_round (a : EvalContext) :
    a.GetDurationMs =
      Float64.round (((a.EndTime.Nanosecond - a.StartTime.Nanosecond : Int) : ℚ) / 1000000) := by
  obtain ⟨he0, he1, _⟩ := Time.nanosecond_unix a.EndTime
  obtain ⟨hs0, hs1, _⟩ := Time.nanosecond_unix a.StartTime
  have h1 : Float64.round ((a.EndTime.Nanosecond - a.StartTime.Nanosecond : Int) : ℚ) =
      ((a.EndTime.Nanosecond - a.StartTime.Nanosecond : Int) : ℚ) :=
    Float64.round_intCast _ (by rw [abs_lt]; constructor <;> omega)
  have h2 : Float64.round ((1000000 : Int) : ℚ) = ((1000000 : Int) : ℚ) :=
    Float64.round_intCast _ (by norm_num)
  simp only [EvalContext.GetDurationMs, Float64.div, Float64.ofInt, h1, h2]
  norm_num

/-- When the nanosecond-of-second difference is a whole number `n` of
milliseconds, `GetDurationMs` returns `n`. -/
theorem GetDurationMs_of_whole_ms (a : EvalContext) (n : Int) (hn : |n| < 2 ^ 53)
    (h : a.EndTime.Nanosecond - a.StartTime.Nanosecond = 1000000 * n) :
    a.GetDurationMs = n := by
  rw [GetDurationMs_eq_round, h]
  have hq : (((1000000 * n : Int) : ℚ)) / 1000000 = (n : ℚ) := by
    push_cast
    field_simp
  rw [hq]
  exact Float64.round_intCast n hn

/-- The nanosecond-of-second difference over an interval of 1500 ms is 500 ms
or -500 ms, never 1500 ms. -/
theorem nanosecond_diff_1500ms (t : Int) :
    (t + 1500000000) % 1000000000 - t % 1000000000 = 500000000 ∨
    (t + 1500000000) % 1000000000 - t % 1000000000 = -500000000 := by
  omega

/-- C2: for `StartTime = T` and `EndTime = T + 1500ms` the elapsed time is
1500 ms, yet `GetDurationMs` returns 500 for `T` at a whole second, and for
every `T` it returns 500 or -500, never 1500. -/
theorem C2_GetDurationMs_1500ms :
    (sampleContext "ok" "" 0 1500000000).EndTime.Sub (sampleContext "ok" "" 0 1500000000).StartTime
      = 1500 * Millisecond ∧
    (sampleContext "ok" "" 0 1500000000).GetDurationMs = 500 ∧
    ∀ (c : EvalContext) (T : Time),
      ({ c with StartTime := T, EndTime := T.Add (1500 * Millisecond) } : EvalContext).GetDurationMs
        = 500 ∨
      ({ c with StartTime := T, EndTime := T.Add (1500 * Millisecond) } : EvalContext).GetDurationMs
        = -500 := by
  refine ⟨by decide, ?_, ?_⟩
  · have h := GetDurationMs_of_whole_ms (sampleContext "ok" "" 0 1500000000) 500 (by norm_num)
      (by decide)
    rw [h]
    norm_num
  · intro c T
    rcases nanosecond_diff_1500ms T.unixNano with h | h
    · left
      have h5 := GetDurationMs_of_whole_ms
        ({ c with StartTime := T, EndTime := T.Add (1500 * Millisecond) } : EvalContext) 500
        (by norm_num)
        (by simp only [Time.Nanosecond, Time.Add, Millisecond, Nanosecond]; omega)
      rw [h5]
      norm_num
    · right
      have h5 := GetDurationMs_of_whole_ms
        ({ c with StartTime := T, EndTime := T.Add (1500 * Millisecond) } : EvalContext) (-500)
        (by norm_num)
        (by simp only [Time.Nanosecond, Time.Add, Millisecond, Nanosecond]; omega)
      rw [h5]
      norm_num

/-- C6: for every context whose `Rule.State` is a recognized state,
`GetStateModel` returns a description and `GetNotificationTitle` returns
`"[" ++ Text ++ "] " ++ Rule.Name`; for state OK and name `cpu` this is
`[OK] cpu`. -/
theorem C6_GetNotificationTitle_format (K : AlertStates) (c : EvalContext)
    (h : K.Recognized c.Rule.State) :
    (∃ sm, c.GetStateModel K = .ok sm ∧
      c.GetNotificationTitle K = .ok ("[" ++ sm.Text ++ "] " ++ c.Rule.Name)) ∧
    (c.Rule.State = K.AlertStateOK → c.Rule.Name = "cpu" →
      c.GetNotificationTitle K = .ok "[OK] cpu") := by
  constructor
  · have hsm : ∃ sm, c.GetStateModel K = .ok sm := by
      unfold EvalContext.GetStateModel
      rcases h with h | h | h | h <;> split_ifs <;> exact ⟨_, rfl⟩
    obtain ⟨sm, hsm⟩ := hsm
    exact ⟨sm, hsm, by simp [EvalContext.GetNotificationTitle, hsm]⟩
  · intro hs hn
    simp [EvalContext.GetNotificationTitle, EvalContext.GetStateModel, hs, hn]

/-- C6 at the rule `cpu` in state OK. -/
theorem C6_GetNotificationTitle_format_witness :
    stdStates.Recognized (sampleContext "ok" "" 0 0).Rule.State ∧
    (sampleContext "ok" "" 0 0).GetNotificationTitle stdStates = .ok "[OK] cpu" :=
  ⟨by decide,
   (C6_GetNotificationTitle_format stdStates (sampleContext "ok" "" 0 0) (by decide)).2 rfl rfl⟩

/-- C7: `GetStateModel` panics if and only if `Rule.State` is none of the four
case constants; when it panics the message is `Unknown rule state ` followed
by the state, and when it does not it returns one of the four descriptions of
the table, never another one. -/
theorem C7_GetStateModel_panics_iff (K : AlertStates) (c : EvalContext) :
    ((∃ msg, c.GetStateModel K = .error msg) ↔ ¬ K.Recognized c.Rule.State) ∧
    (∀ msg, c.GetStateModel K = .error msg → msg = "Unknown rule state " ++ c.Rule.State) ∧
    (∀ sm, c.GetStateModel K = .ok sm → K.Recognized c.Rule.State ∧
      (sm = { Color := "#36a64f", Text := "OK", Data := "" } ∨
       sm = { Color := "#888888", Text := "No Data", Data := "" } ∨
       sm = { Color := "#000", Text := "Execution Error", Data := "" } ∨
       sm = { Color := "#D63232", Text := "Alerting", Data := "" })) := by
  unfold EvalContext.GetStateModel AlertStates.Recognized
  refine ⟨?_, ?_, ?_⟩
  · split_ifs <;> simp_all
  · intro msg
    split_ifs <;> simp_all
  · intro sm
    split_ifs <;> simp_all

/-- C8: the `Deadline` accessor never returns: whatever the number of calls it
is allowed, it has not produced a (deadline, ok) pair, and so never the pair
of the embedded scope that `Done`, `Err` and `Value` forward to. -/
theorem C8_Deadline_never_returns (evalContext : EvalContext) :
    (∀ fuel, evalContext.Deadline fuel = none) ∧
    (∀ fuel, evalContext.Deadline fuel ≠ some evalContext.Context.Deadline) ∧
    evalContext.Done = evalContext.Context.Done ∧
    evalContext.Err = evalContext.Context.Err ∧
    (∀ key, evalContext.Value key = evalContext.Context.Value key) := by
  have h : ∀ fuel, evalContext.Deadline fuel = none := by
    intro fuel
    induction fuel with
    | zero => rfl
    | succ n ih => simpa [EvalContext.Deadline] using ih
  exact ⟨h, fun fuel => by simp [h fuel], rfl, rfl, fun _ => rfl⟩

/-- C3 as stated fails: every lookup of the collaborator succeeds (with the
empty slug), the context is unresolved, and two consecutive calls of
`GetDashboardSlug` dispatch two lookups. -/
theorem C3_two_lookups_on_empty_slug :
    (∀ st q, ((constBus "").handler st q).2.2 = none) ∧
    (sampleContext "ok" "" 0 0).dashboardSlug = "" ∧
    (GetDashboardSlugTwice (constBus "") (sampleContext "ok" "" 0 0)
      (freshWorld ())).2.world.dispatched = [⟨3, ""⟩, ⟨3, ""⟩] ∧
    (GetDashboardSlugTwice (constBus "") (sampleContext "ok" "" 0 0)
      (freshWorld ())).2.world.dispatched.length = 2 := by
  refine ⟨fun _ _ => rfl, rfl, ?_, ?_⟩ <;> decide

/-- C3, amended: for every context with an unresolved `dashboardSlug`, when the
first lookup succeeds with a non-empty slug `s`, two consecutive calls of
`GetDashboardSlug` dispatch exactly one lookup in total (for the dashboard id
of the rule) and both return `s` with no error. -/
theorem C3_GetDashboardSlug_memoized {σ : Type} (bus : Bus σ) (c : EvalContext) (w : World σ)
    (s : String) (hc : c.dashboardSlug = "")
    (hok : (Dispatch bus w (slugQueryOf c)).2.2 = none)
    (hs : (Dispatch bus w (slugQueryOf c)).2.1.Result = s) (hne : s ≠ "") :
    (GetDashboardSlugTwice bus c w).1.value = s ∧
    (GetDashboardSlugTwice bus c w).1.err = none ∧
    (GetDashboardSlugTwice bus c w).2.value = s ∧
    (GetDashboardSlugTwice bus c w).2.err = none ∧
    (GetDashboardSlugTwice bus c w).2.ctx.dashboardSlug = s ∧
    (GetDashboardSlugTwice bus c w).2.world.dispatched = w.dispatched ++ [slugQueryOf c] := by
  have h1 : c.GetDashboardSlug bus w =
      { value := s, err := none, ctx := { c with dashboardSlug := s },
        world := (Dispatch bus w (slugQueryOf c)).1 } := by
    simp only [slugQueryOf] at hok hs ⊢
    simp [EvalContext.GetDashboardSlug, hc, hok, hs]
  have h2 : ({ c with dashboardSlug := s } : EvalContext).GetDashboardSlug bus
      (Dispatch bus w (slugQueryOf c)).1 =
      { value := s, err := none, ctx := { c with dashboardSlug := s },
        world := (Dispatch bus w (slugQueryOf c)).1 } := by
    simp [EvalContext.GetDashboardSlug, hne]
  simp only [GetDashboardSlugTwice, h1, h2]
  simp [Dispatch]

/-- C3 amended, at a collaborator that always answers `my-dash`. -/
theorem C3_GetDashboardSlug_memoized_witness :
    (GetDashboardSlugTwice (constBus "my-dash") (sampleContext "ok" "" 0 0)
      (freshWorld ())).2.value = "my-dash" ∧
    (GetDashboardSlugTwice (constBus "my-dash") (sampleContext "ok" "" 0 0)
      (freshWorld ())).2.world.dispatched = [⟨3, ""⟩] :=
  ⟨(C3_GetDashboardSlug_memoized (constBus "my-dash") (sampleContext "ok" "" 0 0)
      (freshWorld ()) "my-dash" rfl rfl rfl (by decide)).2.2.1,
   (C3_GetDashboardSlug_memoized (constBus "my-dash") (sampleContext "ok" "" 0 0)
      (freshWorld ()) "my-dash" rfl rfl rfl (by decide)).2.2.2.2.2⟩

/-- C4: for every context with an unresolved `dashboardSlug`, when the lookup
fails with error `e`, `GetDashboardSlug` returns the empty string and `e`,
leaves the context unchanged (so still unresolved), has dispatched one lookup,
and the next call dispatches a second one. -/
theorem C4_GetDashboardSlug_failure_not_cached {σ : Type} (bus : Bus σ) (c : EvalContext)
    (w : World σ) (e : Error) (hc : c.dashboardSlug = "")
    (herr : (Dispatch bus w (slugQueryOf c)).2.2 = some e) :
    (c.GetDashboardSlug bus w).value = "" ∧
    (c.GetDashboardSlug bus w).err = some e ∧
    (c.GetDashboardSlug bus w).ctx = c ∧
    (c.GetDashboardSlug bus w).ctx.dashboardSlug = "" ∧
    (c.GetDashboardSlug bus w).world.dispatched = w.dispatched ++ [slugQueryOf c] ∧
    (GetDashboardSlugTwice bus c w).2.world.dispatched =
      w.dispatched ++ [slugQueryOf c] ++ [slugQueryOf c] := by
  have h1 : c.GetDashboardSlug bus w =
      { value := "", err := some e, ctx := c, world := (Dispatch bus w (slugQueryOf c)).1 } := by
    simp only [slugQueryOf] at herr ⊢
    simp [EvalContext.GetDashboardSlug, hc, herr]
  have h2 : ∀ w1 : World σ,
      (c.GetDashboardSlug bus w1).world.dispatched = w1.dispatched ++ [slugQueryOf c] := by
    intro w1
    simp only [EvalContext.GetDashboardSlug, hc]
    split <;> simp_all [Dispatch, slugQueryOf]
    split <;> rfl
  refine ⟨by rw [h1], by rw [h1], by rw [h1], by rw [h1]; exact hc, h2 w, ?_⟩
  simp only [GetDashboardSlugTwice]
  rw [h1]
  simp only
  rw [h2]
  simp [Dispatch]

/-- C4 at a collaborator whose lookups fail with `boom`. -/
theorem C4_GetDashboardSlug_failure_not_cached_witness :
    ((sampleContext "ok" "" 0 0).GetDashboardSlug (failBus "boom") (freshWorld ())).err
      = some "boom" ∧
    (GetDashboardSlugTwice (failBus "boom") (sampleContext "ok" "" 0 0)
      (freshWorld ())).2.world.dispatched = [] ++ [⟨3, ""⟩] ++ [⟨3, ""⟩] :=
  ⟨(C4_GetDashboardSlug_failure_not_cached (failBus "boom") (sampleContext "ok" "" 0 0)
      (freshWorld ()) "boom" rfl rfl).2.1,
   (C4_GetDashboardSlug_failure_not_cached (failBus "boom") (sampleContext "ok" "" 0 0)
      (freshWorld ()) "boom" rfl rfl).2.2.2.2.2⟩

/-- C5: for every base URL `b` and every context whose slug resolves to `s`
with no error, `GetRuleUrl` returns, with no error,
`b ++ "dashboard/db/" ++ s ++ "?fullscreen&edit&tab=alert&panelId=" ++ decimal p`
for the panel id `p` of the rule; for `https://host/`, `my-dash` and 7 this is
`https://host/dashboard/db/my-dash?fullscreen&edit&tab=alert&panelId=7`. -/
theorem C5_GetRuleUrl_composition {σ : Type} (b : String) (bus : Bus σ) (c : EvalContext)
    (w : World σ) (s : String) (hs : (c.GetDashboardSlug bus w).value = s)
    (hok : (c.GetDashboardSlug bus w).err = none) :
    (c.GetRuleUrl b bus w).err = none ∧
    (c.GetRuleUrl b bus w).value =
      b ++ "dashboard/db/" ++ s ++ "?fullscreen&edit&tab=alert&panelId=" ++
        toString c.Rule.PanelId ∧
    (b = "https://host/" → s = "my-dash" → c.Rule.PanelId = 7 →
      (c.GetRuleUrl b bus w).value =
        "https://host/dashboard/db/my-dash?fullscreen&edit&tab=alert&panelId=7") := by
  have hv : (c.GetRuleUrl b bus w).value =
      b ++ "dashboard/db/" ++ s ++ "?fullscreen&edit&tab=alert&panelId=" ++
        toString c.Rule.PanelId := by
    simp [EvalContext.GetRuleUrl, hok, hs, EvalContext.ruleUrlFormat]
  refine ⟨by simp [EvalContext.GetRuleUrl, hok], hv, ?_⟩
  intro hb hs7 hp
  rw [hv, hb, hs7, hp]
  decide

/-- C5 at the base URL `https://host/`, the slug `my-dash` and panel 7. -/
theorem C5_GetRuleUrl_composition_witness :
    ((sampleContext "ok" "" 0 0).GetRuleUrl "https://host/" (constBus "my-dash")
      (freshWorld ())).err = none ∧
    ((sampleContext "ok" "" 0 0).GetRuleUrl "https://host/" (constBus "my-dash")
      (freshWorld ())).value =
      "https://host/dashboard/db/my-dash?fullscreen&edit&tab=alert&panelId=7" :=
  ⟨(C5_GetRuleUrl_composition "https://host/" (constBus "my-dash") (sampleContext "ok" "" 0 0)
      (freshWorld ()) "my-dash" rfl rfl).1,
   (C5_GetRuleUrl_composition "https://host/" (constBus "my-dash") (sampleContext "ok" "" 0 0)
      (freshWorld ()) "my-dash" rfl rfl).2.2 rfl rfl rfl⟩

/-- C7 on a context whose rule is in the state `paused`, which is none of the
four case constants. -/
theorem C7_GetStateModel_panics_iff_witness :
    (sampleContext "paused" "" 0 0).GetStateModel stdStates =
      .error "Unknown rule state paused" := by
  obtain ⟨msg, hmsg⟩ :=
    (C7_GetStateModel_panics_iff stdStates (sampleContext "paused" "" 0 0)).1.2 (by decide)
  rw [hmsg, (C7_GetStateModel_panics_iff stdStates (sampleContext "paused" "" 0 0)).2.1 msg hmsg]
  rfl

/-- A failure of `GetDashboardSlug` is the failure of the lookup it dispatched
from an unresolved context, which it leaves unchanged. -/
theorem GetDashboardSlug_err_inv {σ : Type} (bus : Bus σ) (c : EvalContext) (w : World σ)
    (e : Error) (h : (c.GetDashboardSlug bus w).err = some e) :
    c.dashboardSlug = "" ∧ (Dispatch bus w (slugQueryOf c)).2.2 = some e ∧
    (c.GetDashboardSlug bus w).ctx = c := by
  by_cases hc : c.dashboardSlug = ""
  · cases hd : (Dispatch bus w (slugQueryOf c)).2.2 with
    | none =>
      simp only [slugQueryOf] at hd
      simp [EvalContext.GetDashboardSlug, hc, hd] at h
    | some e1 =>
      simp only [slugQueryOf] at hd
      simp [EvalContext.GetDashboardSlug, hc, hd] at h ⊢
      exact h
  · simp [EvalContext.GetDashboardSlug, hc] at h

/-- C9: `GetRuleUrl` returns an error if and only if `GetDashboardSlug` does;
then it returns the empty string and that same error, which is the error the
collaborator returned to the lookup, and the context is unchanged with
`dashboardSlug` still unresolved. -/
theorem C9_GetRuleUrl_error_iff {σ : Type} (b : String) (bus : Bus σ) (c : EvalContext)
    (w : World σ) :
    ((c.GetRuleUrl b bus w).err = (c.GetDashboardSlug bus w).err) ∧
    ((∃ e, (c.GetRuleUrl b bus w).err = some e) ↔ ∃ e, (c.GetDashboardSlug bus w).err = some e) ∧
    (∀ e, (c.GetDashboardSlug bus w).err = some e →
      (c.GetRuleUrl b bus w).value = "" ∧
      (c.GetRuleUrl b bus w).err = some e ∧
      (Dispatch bus w (slugQueryOf c)).2.2 = some e ∧
      (c.GetRuleUrl b bus w).ctx = c ∧
      (c.GetRuleUrl b bus w).ctx.dashboardSlug = "") := by
  have heq : (c.GetRuleUrl b bus w).err = (c.GetDashboardSlug bus w).err := by
    cases h : (c.GetDashboardSlug bus w).err <;> simp [EvalContext.GetRuleUrl, h]
  refine ⟨heq, by rw [heq], ?_⟩
  intro e he
  obtain ⟨hc, hd, hctx⟩ := GetDashboardSlug_err_inv bus c w e he
  have hctx2 : (c.GetRuleUrl b bus w).ctx = c := by
    simp [EvalContext.GetRuleUrl, he, hctx]
  refine ⟨by simp [EvalContext.GetRuleUrl, he], by rw [heq, he], hd, hctx2, ?_⟩
  rw [hctx2, hc]

/-- C9 at a collaborator whose lookups fail with `boom`. -/
theorem C9_GetRuleUrl_error_iff_witness :
    ((sampleContext "ok" "" 0 0).GetRuleUrl "https://host/" (failBus "boom")
      (freshWorld ())).value = "" ∧
    ((sampleContext "ok" "" 0 0).GetRuleUrl "https://host/" (failBus "boom")
      (freshWorld ())).err = some "boom" ∧
    ((sampleContext "ok" "" 0 0).GetRuleUrl "https://host/" (failBus "boom")
      (freshWorld ())).ctx.dashboardSlug = "" :=
  ⟨((C9_GetRuleUrl_error_iff "https://host/" (failBus "boom") (sampleContext "ok" "" 0 0)
      (freshWorld ())).2.2 "boom" rfl).1,
   ((C9_GetRuleUrl_error_iff "https://host/" (failBus "boom") (sampleContext "ok" "" 0 0)
      (freshWorld ())).2.2 "boom" rfl).2.1,
   ((C9_GetRuleUrl_error_iff "https://host/" (failBus "boom") (sampleContext "ok" "" 0 0)
      (freshWorld ())).2.2 "boom" rfl).2.2.2.2⟩

/-- On a context whose `dashboardSlug` is non-empty, `GetDashboardSlug` returns
it and touches neither the context nor the world. -/
theorem GetDashboardSlug_resolved {σ : Type} (bus : Bus σ) (c : EvalContext) (w : World σ)
    (hne : c.dashboardSlug ≠ "") :
    c.GetDashboardSlug bus w = { value := c.dashboardSlug, err := none, ctx := c, world := w } := by
  simp [EvalContext.GetDashboardSlug, hne]

/-- On a context whose `dashboardSlug` is non-empty, every method leaves the
context and the world as they are. -/
theorem Op.run_resolved {σ : Type} (b : String) (bus : Bus σ) (op : Op) (c : EvalContext)
    (w : World σ) (hne : c.dashboardSlug ≠ "") : op.run b bus c w = (c, w) := by
  cases op <;>
    simp [Op.run, EvalContext.GetRuleUrl, GetDashboardSlug_resolved bus c w hne]

/-- C10: for every context whose `dashboardSlug` is a non-empty `s` and every
collaborator, `GetDashboardSlug` returns `s` with no error and `GetRuleUrl`
returns the URL built from `s` with no error; both leave the world (the trace
of lookups and the collaborator) and the context unchanged, and after any
sequence of methods of the context `dashboardSlug` is still `s` and no lookup
has been dispatched. -/
theorem C10_resolved_slug_preserved {σ : Type} (b : String) (bus : Bus σ) (c : EvalContext)
    (w : World σ) (s : String) (hs : c.dashboardSlug = s) (hne : s ≠ "") :
    c.GetDashboardSlug bus w = { value := s, err := none, ctx := c, world := w } ∧
    c.GetRuleUrl b bus w =
      { value := b ++ "dashboard/db/" ++ s ++ "?fullscreen&edit&tab=alert&panelId=" ++
          toString c.Rule.PanelId,
        err := none, ctx := c, world := w } ∧
    (∀ op : Op, (op.run b bus c w).1.dashboardSlug = s ∧ (op.run b bus c w).2 = w) ∧
    (∀ ops : List Op, (Op.runAll b bus ops c w).1.dashboardSlug = s ∧
      (Op.runAll b bus ops c w).2.dispatched = w.dispatched) := by
  have hc : c.dashboardSlug ≠ "" := by rw [hs]; exact hne
  have h1 := GetDashboardSlug_resolved bus c w hc
  rw [hs] at h1
  refine ⟨h1, ?_, ?_, ?_⟩
  · simp [EvalContext.GetRuleUrl, h1, EvalContext.ruleUrlFormat]
  · intro op
    rw [Op.run_resolved b bus op c w hc]
    exact ⟨hs, rfl⟩
  · intro ops
    have hall : Op.runAll b bus ops c w = (c, w) := by
      induction ops with
      | nil => rfl
      | cons op ops ih =>
        simp only [Op.runAll, Op.run_resolved b bus op c w hc]
        exact ih
    rw [hall]
    exact ⟨hs, rfl⟩

/-- C10 on a context that already holds the slug `my-dash`, with a collaborator
that would answer `other`. -/
theorem C10_resolved_slug_preserved_witness :
    (sampleContext "ok" "my-dash" 0 0).GetDashboardSlug (constBus "other") (freshWorld ()) =
      { value := "my-dash", err := none, ctx := sampleContext "ok" "my-dash" 0 0,
        world := freshWorld () } ∧
    (Op.runAll "https://host/" (constBus "other") [.GetRuleUrl, .GetDashboardSlug, .GetStateModel]
      (sampleContext "ok" "my-dash" 0 0) (freshWorld ())).1.dashboardSlug = "my-dash" ∧
    (Op.runAll "https://host/" (constBus "other") [.GetRuleUrl, .GetDashboardSlug, .GetStateModel]
      (sampleContext "ok" "my-dash" 0 0) (freshWorld ())).2.dispatched = [] :=
  ⟨(C10_resolved_slug_preserved "https://host/" (constBus "other")
      (sampleContext "ok" "my-dash" 0 0) (freshWorld ()) "my-dash" rfl (by decide)).1,
   (C10_resolved_slug_preserved "https://host/" (constBus "other")
      (sampleContext "ok" "my-dash" 0 0) (freshWorld ()) "my-dash" rfl (by decide)).2.2.2
      [.GetRuleUrl, .GetDashboardSlug, .GetStateModel]⟩

/-- C11: for every parent scope, rule and clock readings, `NewEvalContext`
returns a context whose `StartTime` is the reading of `time.Now()`, whose
`EvalMatches` and `Logs` are empty, whose `RetryCount` is 0, whose `Rule` is
the given rule, whose `Cancel` is set, whose scope is the one `WithTimeout`
derived from the parent with 20 seconds, and whose other fields have their zero
values. -/
theorem C11_NewEvalContext_fields (parent : Context) (r : Rule) (tTimeout tStart : Time) :
    (NewEvalContext parent r tTimeout tStart).StartTime = tStart ∧
    (NewEvalContext parent r tTimeout tStart).EvalMatches = [] ∧
    (NewEvalContext parent r tTimeout tStart).EvalMatches.length = 0 ∧
    (NewEvalContext parent r tTimeout tStart).Logs = [] ∧
    (NewEvalContext parent r tTimeout tStart).Logs.length = 0 ∧
    (NewEvalContext parent r tTimeout tStart).RetryCount = 0 ∧
    (NewEvalContext parent r tTimeout tStart).Rule = r ∧
    (NewEvalContext parent r tTimeout tStart).Cancel = true ∧
    (NewEvalContext parent r tTimeout tStart).Context = WithTimeout parent (20 * Second) tTimeout ∧
    (NewEvalContext parent r tTimeout tStart).log = "alerting.evalContext" ∧
    (NewEvalContext parent r tTimeout tStart).Firing = false ∧
    (NewEvalContext parent r tTimeout tStart).IsTestRun = false ∧
    (NewEvalContext parent r tTimeout tStart).Error = none ∧
    (NewEvalContext parent r tTimeout tStart).NoDataFound = false ∧
    (NewEvalContext parent r tTimeout tStart).dashboardSlug = "" ∧
    (NewEvalContext parent r tTimeout tStart).Description = "" ∧
    (NewEvalContext parent r tTimeout tStart).EndTime = Time.zero ∧
    (NewEvalContext parent r tTimeout tStart).ImagePublicUrl = "" ∧
    (NewEvalContext parent r tTimeout tStart).ImageOnDiskPath = "" := by
  refine ⟨rfl, rfl, rfl, rfl, rfl, rfl, rfl, rfl, ?_, rfl, rfl, rfl, rfl, rfl, rfl, rfl, rfl,
    rfl, rfl⟩
  simp [NewEvalContext, Second, Millisecond, Nanosecond]

/-- The deadline of the scope `WithTimeout` derives: the earlier of the
deadline of the parent and `now + timeout`, and `now + timeout` when the parent
has none. -/
theorem WithTimeout_deadline (parent : Context) (timeout : Duration) (now : Time) :
    (WithTimeout parent timeout now).ok = true ∧
    (WithTimeout parent timeout now).deadline =
      if parent.ok = true then ⟨min parent.deadline.unixNano (now.unixNano + timeout)⟩
      else now.Add timeout := by
  by_cases hdn : parent.done = false ∧ timeout ≤ 0
  · by_cases hok : parent.ok = true
    · by_cases hb : parent.deadline.Before (now.Add timeout) = true
      · have hlt : parent.deadline.unixNano < now.unixNano + timeout := by
          simpa [Time.Before, Time.Add] using hb
        simp [WithTimeout, hok, hb, min_eq_left (le_of_lt hlt)]
      · have hge : now.unixNano + timeout ≤ parent.deadline.unixNano := by
          simpa [Time.Before, Time.Add] using hb
        have hb2 : ¬ parent.deadline.Before ⟨now.unixNano + timeout⟩ = true := hb
        simp [WithTimeout, hok, hb2, hdn, Time.Add, min_eq_right hge]
    · simp [WithTimeout, hok, hdn]
  · by_cases hok : parent.ok = true
    · by_cases hb : parent.deadline.Before (now.Add timeout) = true
      · have hlt : parent.deadline.unixNano < now.unixNano + timeout := by
          simpa [Time.Before, Time.Add] using hb
        simp [WithTimeout, hok, hb, min_eq_left (le_of_lt hlt)]
      · have hge : now.unixNano + timeout ≤ parent.deadline.unixNano := by
          simpa [Time.Before, Time.Add] using hb
        have hb2 : ¬ parent.deadline.Before ⟨now.unixNano + timeout⟩ = true := hb
        simp [WithTimeout, hok, hb2, hdn, Time.Add, min_eq_right hge]
    · simp [WithTimeout, hok, hdn]

/-- A scope derived from a parent that is done is done, with the error of the
parent. -/
theorem WithTimeout_done (parent : Context) (timeout : Duration) (now : Time)
    (hd : parent.done = true) :
    (WithTimeout parent timeout now).done = true ∧
    (WithTimeout parent timeout now).err = parent.err := by
  by_cases h : parent.ok = true ∧ parent.deadline.Before (now.Add timeout) = true
  · simp [WithTimeout, h, hd]
  · simp [WithTimeout, h, hd]

/-- C12: the scope embedded in the context `NewEvalContext` returns has the
deadline min(parent deadline, reading + 20s), which is reading + 20s when the
parent has no deadline, and a context built on a cancelled parent answers
`Done` and `Err` as cancelled; but the `Deadline` accessor of the context never
returns, so the deadline of the context is not observable through it. -/
theorem C12_NewEvalContext_deadline (parent : Context) (r : Rule) (tTimeout tStart : Time) :
    ((NewEvalContext parent r tTimeout tStart).Context.Deadline =
      (if parent.ok = true then
          ⟨min parent.deadline.unixNano (tTimeout.unixNano + 20 * Second)⟩
        else tTimeout.Add (20 * Second), true)) ∧
    (parent.done = true →
      (NewEvalContext parent r tTimeout tStart).Done = true ∧
      (NewEvalContext parent r tTimeout tStart).Err = parent.err) ∧
    (∀ fuel, (NewEvalContext parent r tTimeout tStart).Deadline fuel = none) := by
  have hctx : (NewEvalContext parent r tTimeout tStart).Context =
      WithTimeout parent (20 * Second) tTimeout := by
    simp [NewEvalContext, Second, Millisecond, Nanosecond]
  refine ⟨?_, ?_, ?_⟩
  · obtain ⟨h1, h2⟩ := WithTimeout_deadline parent (20 * Second) tTimeout
    simp only [Context.Deadline, hctx, h1, h2]
  · intro hd
    obtain ⟨h1, h2⟩ := WithTimeout_done parent (20 * Second) tTimeout hd
    simp only [EvalContext.Done, EvalContext.Err, Context.Done, Context.Err, hctx]
    exact ⟨h1, h2⟩
  · intro fuel
    induction fuel with
    | zero => rfl
    | succ n ih => simpa [EvalContext.Deadline] using ih

/-- C13: `GetStateModel`, `GetDurationMs` and `GetNotificationTitle` leave the
context (every field, `StartTime` and `dashboardSlug` included) and the world
(no lookup dispatched) as they are, and two contexts that agree on
`Rule.State`, on (`StartTime`, `EndTime`), on (`Rule.State`, `Rule.Name`) get
the same result from the respective method. -/
theorem C13_presentation_helpers_pure {σ : Type} (K : AlertStates) (b : String) (bus : Bus σ)
    (c c2 : EvalContext) (w : World σ) :
    (Op.run b bus .GetStateModel c w = (c, w) ∧
     Op.run b bus .GetDurationMs c w = (c, w) ∧
     Op.run b bus .GetNotificationTitle c w = (c, w)) ∧
    ((Op.runAll b bus [.GetStateModel, .GetDurationMs, .GetNotificationTitle] c w).1 = c ∧
     (Op.runAll b bus [.GetStateModel, .GetDurationMs, .GetNotificationTitle] c w).2.dispatched
       = w.dispatched) ∧
    (c.Rule.State = c2.Rule.State → c.GetStateModel K = c2.GetStateModel K) ∧
    (c.StartTime = c2.StartTime → c.EndTime = c2.EndTime → c.GetDurationMs = c2.GetDurationMs) ∧
    (c.Rule.State = c2.Rule.State → c.Rule.Name = c2.Rule.Name →
      c.GetNotificationTitle K = c2.GetNotificationTitle K) := by
  refine ⟨⟨rfl, rfl, rfl⟩, ⟨rfl, rfl⟩, ?_, ?_, ?_⟩
  · intro h
    simp only [EvalContext.GetStateModel, h]
  · intro h1 h2
    simp only [EvalContext.GetDurationMs, h1, h2]
  · intro h1 h2
    simp only [EvalContext.GetNotificationTitle, EvalContext.GetStateModel, h1, h2]

/-- C13 on two contexts for the same rule that differ in the memoized slug. -/
theorem C13_presentation_helpers_pure_witness :
    (sampleContext "alerting" "" 5 9).GetStateModel stdStates =
      (sampleContext "alerting" "my-dash" 5 9).GetStateModel stdStates ∧
    (sampleContext "alerting" "" 5 9).GetDurationMs =
      (sampleContext "alerting" "my-dash" 5 9).GetDurationMs ∧
    (sampleContext "alerting" "" 5 9).GetNotificationTitle stdStates =
      (sampleContext "alerting" "my-dash" 5 9).GetNotificationTitle stdStates :=
  ⟨(C13_presentation_helpers_pure stdStates "https://host/" (constBus "x")
      (sampleContext "alerting" "" 5 9) (sampleContext "alerting" "my-dash" 5 9)
      (freshWorld ())).2.2.1 rfl,
   (C13_presentation_helpers_pure stdStates "https://host/" (constBus "x")
      (sampleContext "alerting" "" 5 9) (sampleContext "alerting" "my-dash" 5 9)
      (freshWorld ())).2.2.2.1 rfl rfl,
   (C13_presentation_helpers_pure stdStates "https://host/" (constBus "x")
      (sampleContext "alerting" "" 5 9) (sampleContext "alerting" "my-dash" 5 9)
      (freshWorld ())).2.2.2.2 rfl rfl⟩

/-- C14 as stated fails: for `StartTime` at 0 ns and `EndTime` at 1 ns, both in
the same second, `GetDurationMs` returns the binary64 value
4722366482869645 / 2^72, which is not 1 / 10^6: it is neither the quotient of
the nanosecond-of-second difference by 10^6, nor the true elapsed time, nor at
distance 1000 x (difference of the whole seconds) = 0 from it. -/
theorem C14_rounded_quotient_not_exact :
    (sampleContext "ok" "" 0 1).GetDurationMs = 4722366482869645 / 2 ^ 72 ∧
    (sampleContext "ok" "" 0 1).GetDurationMs ≠
      (((sampleContext "ok" "" 0 1).EndTime.Nanosecond -
        (sampleContext "ok" "" 0 1).StartTime.Nanosecond : Int) : ℚ) / 1000000 ∧
    (sampleContext "ok" "" 0 1).EndTime.Unix = (sampleContext "ok" "" 0 1).StartTime.Unix ∧
    (sampleContext "ok" "" 0 1).GetDurationMs ≠ elapsedMsSpec (sampleContext "ok" "" 0 1) ∧
    elapsedMsSpec (sampleContext "ok" "" 0 1) - (sampleContext "ok" "" 0 1).GetDurationMs ≠
      1000 * (((sampleContext "ok" "" 0 1).EndTime.Unix -
        (sampleContext "ok" "" 0 1).StartTime.Unix : Int) : ℚ) := by
  have hd : (sampleContext "ok" "" 0 1).EndTime.Nanosecond -
      (sampleContext "ok" "" 0 1).StartTime.Nanosecond = 1 := by decide
  have hu : (sampleContext "ok" "" 0 1).EndTime.Unix -
      (sampleContext "ok" "" 0 1).StartTime.Unix = 0 := by decide
  have hv : (sampleContext "ok" "" 0 1).GetDurationMs = 4722366482869645 / 2 ^ 72 := by
    rw [GetDurationMs_eq_round, hd]
    have h1 : (((1 : Int) : ℚ)) / 1000000 = 1 / 1000000 := by norm_num
    rw [h1, Float64.round_millionth]
  have hs : elapsedMsSpec (sampleContext "ok" "" 0 1) = 1 / 1000000 := by
    norm_num [elapsedMsSpec, sampleContext, Time.Sub]
  refine ⟨hv, ?_, by decide, ?_, ?_⟩
  · rw [hv, hd]
    norm_num
  · rw [hv, hs]
    norm_num
  · rw [hv, hs, hu]
    norm_num

/-- C14, amended: the value `GetDurationMs` computes is the binary64 value
nearest to the quotient `q` of the nanosecond-of-second difference by 10^6, at
most 2^-44 away from `q`; it lies strictly between -1000 and 1000; the true
elapsed milliseconds exceed `q` by exactly 1000 times the difference of the
whole seconds of `EndTime` and `StartTime`; so `q` is the true elapsed time,
and the value is within 2^-44 of it, if and only if both instants fall in the
same second. -/
theorem C14_GetDurationMs_subsecond (a : EvalContext) :
    a.GetDurationMs =
      Float64.round (((a.EndTime.Nanosecond - a.StartTime.Nanosecond : Int) : ℚ) / 1000000) ∧
    |a.GetDurationMs - ((a.EndTime.Nanosecond - a.StartTime.Nanosecond : Int) : ℚ) / 1000000|
      ≤ 1 / 2 ^ 44 ∧
    -1000 < a.GetDurationMs ∧ a.GetDurationMs < 1000 ∧
    elapsedMsSpec a - ((a.EndTime.Nanosecond - a.StartTime.Nanosecond : Int) : ℚ) / 1000000 =
      1000 * ((a.EndTime.Unix - a.StartTime.Unix : Int) : ℚ) ∧
    (((a.EndTime.Nanosecond - a.StartTime.Nanosecond : Int) : ℚ) / 1000000 = elapsedMsSpec a ↔
      a.EndTime.Unix = a.StartTime.Unix) ∧
    (|a.GetDurationMs - elapsedMsSpec a| ≤ 1 / 2 ^ 44 ↔ a.EndTime.Unix = a.StartTime.Unix) := by
  obtain ⟨he0, he1, he2⟩ := Time.nanosecond_unix a.EndTime
  obtain ⟨hs0, hs1, hs2⟩ := Time.nanosecond_unix a.StartTime
  have hval := GetDurationMs_eq_round a
  generalize hq : ((a.EndTime.Nanosecond - a.StartTime.Nanosecond : Int) : ℚ) / 1000000 = q
    at hval ⊢
  have hlo : (-999999999 : ℚ) / 1000000 ≤ q := by
    have h1 : (-999999999 : Int) ≤ a.EndTime.Nanosecond - a.StartTime.Nanosecond := by omega
    have h2 : ((-999999999 : Int) : ℚ) ≤
        ((a.EndTime.Nanosecond - a.StartTime.Nanosecond : Int) : ℚ) := Int.cast_le.2 h1
    rw [← hq]
    push_cast at h2 ⊢
    linarith
  have hhi : q ≤ (999999999 : ℚ) / 1000000 := by
    have h1 : a.EndTime.Nanosecond - a.StartTime.Nanosecond ≤ (999999999 : Int) := by omega
    have h2 : ((a.EndTime.Nanosecond - a.StartTime.Nanosecond : Int) : ℚ) ≤
        ((999999999 : Int) : ℚ) := Int.cast_le.2 h1
    rw [← hq]
    push_cast at h2 ⊢
    linarith
  have habs : |q| < 2 ^ (10 : Int) := by
    rw [abs_lt]
    norm_num
    constructor <;> linarith
  have herr : |a.GetDurationMs - q| ≤ 1 / 2 ^ 44 := by
    have h1 := Float64.abs_round_sub_le q
    have h2 := Float64.ulpExponent_le q 10 (by norm_num) habs
    have h3 : (2 : ℚ) ^ Float64.ulpExponent q ≤ 2 ^ (-43 : Int) :=
      zpow_le_zpow_right₀ (by norm_num) (by omega)
    have h4 : (2 : ℚ) ^ (-43 : Int) / 2 = 1 / 2 ^ 44 := by norm_num
    rw [hval]
    calc |Float64.round q - q| ≤ 2 ^ Float64.ulpExponent q / 2 := h1
      _ ≤ 2 ^ (-43 : Int) / 2 := (div_le_div_iff_of_pos_right (by norm_num)).2 h3
      _ = 1 / 2 ^ 44 := h4
  have hsmall : (1 : ℚ) / 2 ^ 44 < 1 / 1000000 := by norm_num
  have hdiff : elapsedMsSpec a - q = 1000 * ((a.EndTime.Unix - a.StartTime.Unix : Int) : ℚ) := by
    have hz : a.EndTime.unixNano - a.StartTime.unixNano =
        1000000000 * (a.EndTime.Unix - a.StartTime.Unix) +
          (a.EndTime.Nanosecond - a.StartTime.Nanosecond) := by omega
    have hzq := congrArg (Int.cast : Int → ℚ) hz
    push_cast at hzq
    rw [← hq]
    simp only [elapsedMsSpec, Time.Sub]
    push_cast
    rw [hzq]
    ring
  have hunit : a.EndTime.Unix = a.StartTime.Unix ↔
      ((a.EndTime.Unix - a.StartTime.Unix : Int) : ℚ) = 0 := by
    rw [Int.cast_eq_zero]
    omega
  obtain ⟨hg1, hg2⟩ := abs_le.1 herr
  refine ⟨hval, herr, by linarith, by linarith, hdiff, ?_, ?_⟩
  · rw [hunit]
    constructor <;> intro h <;> linarith
  · rw [hunit]
    constructor
    · intro h
      obtain ⟨hb1, hb2⟩ := abs_le.1 h
      have hcases : a.EndTime.Unix - a.StartTime.Unix ≤ -1 ∨ a.EndTime.Unix - a.StartTime.Unix = 0 ∨
          1 ≤ a.EndTime.Unix - a.StartTime.Unix := by omega
      rcases hcases with hc | hc | hc
      · have hcq : ((a.EndTime.Unix - a.StartTime.Unix : Int) : ℚ) ≤ ((-1 : Int) : ℚ) :=
          Int.cast_le.2 hc
        simp only [Int.cast_neg, Int.cast_one] at hcq
        exfalso
        linarith
      · rw [hc]
        norm_num
      · have hcq : ((1 : Int) : ℚ) ≤ ((a.EndTime.Unix - a.StartTime.Unix : Int) : ℚ) :=
          Int.cast_le.2 hc
        simp only [Int.cast_one] at hcq
        exfalso
        linarith
    · intro h
      rw [h, mul_zero] at hdiff
      have he : elapsedMsSpec a = q := by linarith
      rw [he]
      exact herr

/-- C15: for every context with an unresolved `dashboardSlug`, when the lookup
succeeds with the empty slug, `GetDashboardSlug` returns the empty string and
no error and leaves the context as it was, still unresolved; the next call
dispatches another lookup; and `GetRuleUrl` returns, with no error, the URL
with an empty slug segment. -/
theorem C15_empty_slug_not_memoized {σ : Type} (b : String) (bus : Bus σ) (c : EvalContext)
    (w : World σ) (hc : c.dashboardSlug = "")
    (hok : (Dispatch bus w (slugQueryOf c)).2.2 = none)
    (hs : (Dispatch bus w (slugQueryOf c)).2.1.Result = "") :
    (c.GetDashboardSlug bus w).value = "" ∧
    (c.GetDashboardSlug bus w).err = none ∧
    (c.GetDashboardSlug bus w).ctx = c ∧
    (c.GetDashboardSlug bus w).ctx.dashboardSlug = "" ∧
    (c.GetDashboardSlug bus w).world.dispatched = w.dispatched ++ [slugQueryOf c] ∧
    (GetDashboardSlugTwice bus c w).2.world.dispatched =
      w.dispatched ++ [slugQueryOf c] ++ [slugQueryOf c] ∧
    (c.GetRuleUrl b bus w).err = none ∧
    (c.GetRuleUrl b bus w).value =
      b ++ "dashboard/db/?fullscreen&edit&tab=alert&panelId=" ++ toString c.Rule.PanelId := by
  have hceq : ({ c with dashboardSlug := "" } : EvalContext) = c := by
    rw [← hc]
  have h1 : c.GetDashboardSlug bus w =
      { value := "", err := none, ctx := c, world := (Dispatch bus w (slugQueryOf c)).1 } := by
    simp only [slugQueryOf] at hok hs ⊢
    simp [EvalContext.GetDashboardSlug, hc, hok, hs, hceq]
  have h2 : ∀ w1 : World σ,
      (c.GetDashboardSlug bus w1).world.dispatched = w1.dispatched ++ [slugQueryOf c] := by
    intro w1
    simp only [EvalContext.GetDashboardSlug, hc]
    split <;> simp_all [Dispatch, slugQueryOf]
    split <;> rfl
  have hlit : ("dashboard/db/" : String) ++ "?fullscreen&edit&tab=alert&panelId=" =
      "dashboard/db/?fullscreen&edit&tab=alert&panelId=" := by decide
  refine ⟨by rw [h1], by rw [h1], by rw [h1], by rw [h1]; exact hc, h2 w, ?_, ?_, ?_⟩
  · simp only [GetDashboardSlugTwice]
    rw [h1]
    simp only
    rw [h2]
    simp [Dispatch]
  · simp [EvalContext.GetRuleUrl, h1]
  · simp only [EvalContext.GetRuleUrl, h1, EvalContext.ruleUrlFormat]
    rw [String.append_empty, String.append_assoc b, hlit]

/-- C15 at a collaborator whose lookups succeed with the empty slug. -/
theorem C15_empty_slug_not_memoized_witness :
    ((sampleContext "ok" "" 0 0).GetDashboardSlug (constBus "") (freshWorld ())).ctx.dashboardSlug
      = "" ∧
    ((sampleContext "ok" "" 0 0).GetRuleUrl "https://host/" (constBus "") (freshWorld ())).err
      = none ∧
    ((sampleContext "ok" "" 0 0).GetRuleUrl "https://host/" (constBus "") (freshWorld ())).value
      = "https://host/" ++ "dashboard/db/?fullscreen&edit&tab=alert&panelId=" ++
        toString (sampleContext "ok" "" 0 0).Rule.PanelId :=
  ⟨(C15_empty_slug_not_memoized "https://host/" (constBus "") (sampleContext "ok" "" 0 0)
      (freshWorld ()) rfl rfl rfl).2.2.2.1,
   (C15_empty_slug_not_memoized "https://host/" (constBus "") (sampleContext "ok" "" 0 0)
      (freshWorld ()) rfl rfl rfl).2.2.2.2.2.2.1,
   (C15_empty_slug_not_memoized "https://host/" (constBus "") (sampleContext "ok" "" 0 0)
      (freshWorld ()) rfl rfl rfl).2.2.2.2.2.2.2⟩

/-- The three ways `GetDashboardSlug` can go: early return, failed lookup,
successful lookup. -/
theorem GetDashboardSlug_cases {σ : Type} (bus : Bus σ) (c : EvalContext) (w : World σ) :
    (c.dashboardSlug ≠ "" ∧
      c.GetDashboardSlug bus w = { value := c.dashboardSlug, err := none, ctx := c, world := w }) ∨
    (c.dashboardSlug = "" ∧ ∃ e, (Dispatch bus w (slugQueryOf c)).2.2 = some e ∧
      c.GetDashboardSlug bus w =
        { value := "", err := some e, ctx := c, world := (Dispatch bus w (slugQueryOf c)).1 }) ∨
    (c.dashboardSlug = "" ∧ (Dispatch bus w (slugQueryOf c)).2.2 = none ∧
      c.GetDashboardSlug bus w =
        { value := (Dispatch bus w (slugQueryOf c)).2.1.Result, err := none,
          ctx := { c with dashboardSlug := (Dispatch bus w (slugQueryOf c)).2.1.Result },
          world := (Dispatch bus w (slugQueryOf c)).1 }) := by
  by_cases hc : c.dashboardSlug = ""
  · right
    cases hd : (Dispatch bus w (slugQueryOf c)).2.2 with
    | none =>
      right
      refine ⟨hc, rfl, ?_⟩
      simp only [slugQueryOf] at hd ⊢
      simp [EvalContext.GetDashboardSlug, hc, hd]
    | some e =>
      left
      refine ⟨hc, e, rfl, ?_⟩
      simp only [slugQueryOf] at hd ⊢
      simp [EvalContext.GetDashboardSlug, hc, hd]
  · left
    exact ⟨hc, by simp [EvalContext.GetDashboardSlug, hc]⟩

/-- C16: for every context and every collaborator, `GetDashboardSlug` and
`GetRuleUrl` return a context that is the old one with at most `dashboardSlug`
changed; on success the slug returned, or embedded in the URL, is the value of
`dashboardSlug` after the call; and they dispatch nothing or one lookup, whose
`Id` is `Rule.DashboardId`. -/
theorem C16_slug_methods_frame {σ : Type} (b : String) (bus : Bus σ) (c : EvalContext)
    (w : World σ) :
    ((c.GetDashboardSlug bus w).ctx =
        { c with dashboardSlug := (c.GetDashboardSlug bus w).ctx.dashboardSlug } ∧
     ((c.GetDashboardSlug bus w).err = none →
        (c.GetDashboardSlug bus w).value = (c.GetDashboardSlug bus w).ctx.dashboardSlug) ∧
     ((c.GetDashboardSlug bus w).world.dispatched = w.dispatched ∨
      (c.GetDashboardSlug bus w).world.dispatched =
        w.dispatched ++ [{ Id := c.Rule.DashboardId, Result := "" }])) ∧
    ((c.GetRuleUrl b bus w).ctx =
        { c with dashboardSlug := (c.GetRuleUrl b bus w).ctx.dashboardSlug } ∧
     ((c.GetRuleUrl b bus w).err = none →
        (c.GetRuleUrl b bus w).value =
          b ++ "dashboard/db/" ++ (c.GetRuleUrl b bus w).ctx.dashboardSlug ++
            "?fullscreen&edit&tab=alert&panelId=" ++ toString c.Rule.PanelId) ∧
     ((c.GetRuleUrl b bus w).world.dispatched = w.dispatched ∨
      (c.GetRuleUrl b bus w).world.dispatched =
        w.dispatched ++ [{ Id := c.Rule.DashboardId, Result := "" }])) := by
  rcases GetDashboardSlug_cases bus c w with ⟨_, h⟩ | ⟨_, e, _, h⟩ | ⟨_, _, h⟩
  · simp [EvalContext.GetRuleUrl, EvalContext.ruleUrlFormat, h]
  · simp [EvalContext.GetRuleUrl, EvalContext.ruleUrlFormat, h, Dispatch, slugQueryOf]
  · simp [EvalContext.GetRuleUrl, EvalContext.ruleUrlFormat, h, Dispatch, slugQueryOf]

/-- C16 at a context that resolves its slug through a lookup. -/
theorem C16_slug_methods_frame_witness :
    ((sampleContext "ok" "" 0 0).GetRuleUrl "https://host/" (constBus "my-dash")
      (freshWorld ())).ctx = sampleContext "ok" "my-dash" 0 0 ∧
    ((sampleContext "ok" "" 0 0).GetRuleUrl "https://host/" (constBus "my-dash")
      (freshWorld ())).world.dispatched = [{ Id := 3, Result := "" }] := by
  refine ⟨?_, ?_⟩
  · rw [(C16_slug_methods_frame "https://host/" (constBus "my-dash") (sampleContext "ok" "" 0 0)
      (freshWorld ())).2.1]
    rfl
  · rcases (C16_slug_methods_frame "https://host/" (constBus "my-dash")
      (sampleContext "ok" "" 0 0) (freshWorld ())).2.2.2 with h | h
    · exact absurd h (by decide)
    · exact h

/-- The panic of `GetStateModel`: it happens exactly on an unrecognized state,
with the state in the message. -/
theorem GetStateModel_error_iff (K : AlertStates) (c : EvalContext) :
    ((∃ msg, c.GetStateModel K = .error msg) ↔ ¬ K.Recognized c.Rule.State) ∧
    (¬ K.Recognized c.Rule.State →
      c.GetStateModel K = .error ("Unknown rule state " ++ c.Rule.State)) := by
  unfold EvalContext.GetStateModel AlertStates.Recognized
  constructor
  · split_ifs <;> simp_all
  · intro h
    split_ifs <;> simp_all

/-- C17: `GetNotificationTitle` panics if and only if `GetStateModel` does,
with the same message, that is exactly when `Rule.State` is none of the four
case constants; for such a state it returns no title, whatever the name of the
rule. -/
theorem C17_GetNotificationTitle_panics_iff (K : AlertStates) (c : EvalContext) :
    (∀ msg, c.GetNotificationTitle K = .error msg ↔ c.GetStateModel K = .error msg) ∧
    ((∃ msg, c.GetNotificationTitle K = .error msg) ↔ ¬ K.Recognized c.Rule.State) ∧
    (¬ K.Recognized c.Rule.State → ∀ n : String,
      ({ c with Rule := { c.Rule with Name := n } } : EvalContext).GetNotificationTitle K =
        .error ("Unknown rule state " ++ c.Rule.State)) := by
  have hiff : ∀ c1 : EvalContext, ∀ msg,
      c1.GetNotificationTitle K = .error msg ↔ c1.GetStateModel K = .error msg := by
    intro c1 msg
    unfold EvalContext.GetNotificationTitle
    cases c1.GetStateModel K <;> simp
  refine ⟨hiff c, ?_, ?_⟩
  · rw [← (GetStateModel_error_iff K c).1]
    exact ⟨fun ⟨m, hm⟩ => ⟨m, (hiff c m).1 hm⟩, fun ⟨m, hm⟩ => ⟨m, (hiff c m).2 hm⟩⟩
  · intro hn n
    rw [hiff]
    exact (GetStateModel_error_iff K { c with Rule := { c.Rule with Name := n } }).2 hn

/-- C17 on a rule in the state `paused`, renamed `disk`. -/
theorem C17_GetNotificationTitle_panics_iff_witness :
    ({ sampleContext "paused" "" 0 0 with
        Rule := { (sampleContext "paused" "" 0 0).Rule with Name := "disk" } } :
      EvalContext).GetNotificationTitle stdStates = .error "Unknown rule state paused" :=
  (C17_GetNotificationTitle_panics_iff stdStates (sampleContext "paused" "" 0 0)).2.2
    (by decide) "disk"

/-- C12 on a parent whose deadline (5 s) is before reading + 20 s, and on a
cancelled parent. -/
theorem C12_NewEvalContext_deadline_witness :
    (NewEvalContext (deadlineParent 5000000000) (sampleRule "ok") ⟨0⟩ ⟨1⟩).Context.Deadline
      = (⟨5000000000⟩, true) ∧
    (NewEvalContext cancelledParent (sampleRule "ok") ⟨0⟩ ⟨1⟩).Context.Deadline
      = (⟨20000000000⟩, true) ∧
    (NewEvalContext cancelledParent (sampleRule "ok") ⟨0⟩ ⟨1⟩).Err = some "context canceled" ∧
    (NewEvalContext (deadlineParent 5000000000) (sampleRule "ok") ⟨0⟩ ⟨1⟩).Deadline 1000 = none :=
  ⟨(C12_NewEvalContext_deadline (deadlineParent 5000000000) (sampleRule "ok") ⟨0⟩ ⟨1⟩).1.trans
      (by decide),
   (C12_NewEvalContext_deadline cancelledParent (sampleRule "ok") ⟨0⟩ ⟨1⟩).1.trans (by decide),
   ((C12_NewEvalContext_deadline cancelledParent (sampleRule "ok") ⟨0⟩ ⟨1⟩).2.1 rfl).2,
   (C12_NewEvalContext_deadline (deadlineParent 5000000000) (sampleRule "ok") ⟨0⟩ ⟨1⟩).2.2 1000⟩

end Alerting
